import Mathlib

/-!
Shallow embedding of the shortcode store of `src/Backend/__init__.py`
(class `DatabaseHandler` and the redirect route `redirect_short_url`).

Modelling conventions:
* UTC instants are integers (seconds since an epoch); `timedelta(minutes=m)`
  is `60 * m`.
* The python dict `self.data` is an association list with unique keys and
  dict semantics for assignment (`setKey`) and deletion (`eraseKey`).
* `random.choices` is abstracted by an oracle `choice : Nat → Nat` giving the
  alphabet index of each drawn character; the `while True` generation loop of
  `save` takes an oracle `gen : Nat → String` giving the candidate of each
  draw, and is written with explicit fuel whose zero case is unreachable from
  the loop's entry point.
* Each `datetime.datetime.now(...)` call site becomes an explicit time
  parameter of the operation that contains it.
-/

namespace UrlShortener

/-- One click dict, as appended by `DatabaseHandler.record_click`:
timestamp, optional referrer, optional location. -/
structure ClickDetail where
  timestamp : Int
  referrer : Option String
  location : Option String
  deriving Repr, DecidableEq

/-- One stored record, mirroring the dict written by `DatabaseHandler.save`
(fields `url`, `validity`, `expiry`, `created`, `clicks`, `click_details`). -/
structure UrlRecord where
  url : String
  validity : Int
  expiry : Int
  created : Int
  clicks : Nat
  click_details : List ClickDetail
  deriving Repr, DecidableEq

/-- The request body (pydantic model `Item`): `url`, optional `validity`
(constrained `ge=1` by pydantic, default 30), optional `shortcode`. -/
structure Item where
  url : String
  validity : Option Int
  shortcode : Option String
  deriving Repr, DecidableEq

/-- The store's map `self.data`. -/
abbrev Store := List (String × UrlRecord)

/-- `self.data.get(k)`. -/
def lookup : Store → String → Option UrlRecord
  | [], _ => none
  | (k, v) :: rest, key => if k = key then some v else lookup rest key

/-- `self.data[k] = v` with python-dict semantics: overwrite in place when the
key exists, otherwise append in insertion order. -/
def setKey (st : Store) (k : String) (v : UrlRecord) : Store :=
  if (lookup st k).isSome then
    st.map (fun p => if p.1 = k then (k, v) else p)
  else
    st ++ [(k, v)]

/-- `del self.data[k]`. -/
def eraseKey : Store → String → Store
  | [], _ => []
  | (a, b) :: rest, k => if a = k then eraseKey rest k else (a, b) :: eraseKey rest k

/-- Python truthiness of `item.shortcode` in `if item.shortcode:`:
`None` and the empty string are falsy. -/
def truthyStr : Option String → Bool
  | none => false
  | some s => s != ""

/-- Python `item.validity or 30`: `None` and `0` are falsy and give 30. -/
def orDefault : Option Int → Int
  | none => 30
  | some n => if n = 0 then 30 else n

/-- `SHORTCODE_REGEX.match`, for the regex `^[a-zA-Z0-9]{4,16}$`
(`Char.isAlphanum` is exactly ASCII `[a-zA-Z0-9]`). -/
def is_valid_shortcode (s : String) : Bool :=
  decide (4 ≤ s.length) && decide (s.length ≤ 16) && s.toList.all (fun c => c.isAlphanum)

/-- The generation alphabet of `_generate_shortcode`. -/
def ALPHABET : String := "abcdefghijklmnopqrstuvwxyz0123456789"

/-- `_generate_shortcode`: six draws from the 36-symbol alphabet;
`choice i` is the raw random index of the i-th character. -/
def generate_shortcode (choice : Nat → Nat) : String :=
  String.mk ((List.range 6).map (fun i => ALPHABET.toList.getD (choice i % 36) 'a'))

/-- The three exceptions `save` can raise. -/
inductive SaveErr
  | invalidFormat
  | shortcodeTaken
  | spaceExhausted
  deriving Repr, DecidableEq

/-- The `while True` generation loop of `save`.  `attempts` counts completed
colliding draws so far (the python variable of the same name); `gen attempts`
is the candidate of the next draw.  The loop raises once `attempts` exceeds
10000.  `fuel` only bounds the recursion: called with `fuel = 10001 - attempts`
the zero case is unreachable, because the loop re-enters only while
`attempts + 1 ≤ 10000`. -/
def genAux (mem : String → Bool) (gen : Nat → String) : Nat → Nat → Except SaveErr String
  | _, 0 => .error .spaceExhausted
  | attempts, fuel + 1 =>
    let c := gen attempts
    if mem c then
      if attempts + 1 > 10000 then .error .spaceExhausted
      else genAux mem gen (attempts + 1) fuel
    else .ok c

/-- The generation loop entered with `attempts = 0`. -/
def genLoop (mem : String → Bool) (gen : Nat → String) : Except SaveErr String :=
  genAux mem gen 0 10001

/-- Membership test `shortcode in self.data` / `shortcode not in self.data`. -/
def memOf (st : Store) : String → Bool := fun c => (lookup st c).isSome

/-- The shortcode-selection half of `save`: validate a truthy custom
shortcode, or run the generation loop. -/
def pickShortcode (st : Store) (item : Item) (gen : Nat → String) : Except SaveErr String :=
  if truthyStr item.shortcode then
    let sc := item.shortcode.getD ""
    if !(is_valid_shortcode sc) then .error .invalidFormat
    else if (lookup st sc).isSome then .error .shortcodeTaken
    else .ok sc
  else
    genLoop (memOf st) gen

/-- `DatabaseHandler.save`.  Returns the outcome paired with the store after
the call; every `raise` in the source happens before the insert, so the
store comes back unchanged on error.  `now` is this call's single
`datetime.now(UTC)` read. -/
def save (st : Store) (item : Item) (gen : Nat → String) (now : Int) :
    Except SaveErr String × Store :=
  match pickShortcode st item gen with
  | .error e => (.error e, st)
  | .ok sc =>
    (.ok sc, setKey st sc
      { url := item.url
        validity := orDefault item.validity
        expiry := now + 60 * orDefault item.validity
        created := now
        clicks := 0
        click_details := [] })

/-- `DatabaseHandler.get` (the resolve path): missing key gives `none`;
an expired record is deleted and gives `none` (lazy expiry); otherwise the
record is returned and the store untouched. -/
def get (st : Store) (code : String) (now : Int) : Option UrlRecord × Store :=
  match lookup st code with
  | none => (none, st)
  | some item =>
    if now > item.expiry then (none, eraseKey st code)
    else (some item, st)

/-- The stats dict composed by `DatabaseHandler.get_stats` (isoformat is the
identity in this model of time). -/
structure Stats where
  shortLink : String
  originalUrl : String
  created : Int
  expiry : Int
  clicks : Nat
  clickDetails : List ClickDetail
  deriving Repr, DecidableEq

/-- `DatabaseHandler.get_stats`: a plain lookup — no expiry handling, no
mutation, full data even for an expired-but-not-evicted record. -/
def get_stats (st : Store) (code : String) : Option Stats × Store :=
  match lookup st code with
  | none => (none, st)
  | some item =>
    (some { shortLink := "http://localhost:8000/" ++ code
            originalUrl := item.url
            created := item.created
            expiry := item.expiry
            clicks := item.clicks
            clickDetails := item.click_details }, st)

/-- `DatabaseHandler.record_click`: silently ignores an absent shortcode,
otherwise increments `clicks` and appends one click dict.  No expiry
check anywhere on this path. -/
def record_click (st : Store) (code : String) (referrer location : Option String)
    (now : Int) : Store :=
  match lookup st code with
  | none => st
  | some item =>
    setKey st code
      { item with
        clicks := item.clicks + 1
        click_details := item.click_details ++
          [{ timestamp := now, referrer := referrer, location := location }] }

/-- Outcome of the redirect route: 404 not-found, 410 gone, or a redirect. -/
inductive RedirectResp
  | notFound
  | gone
  | redirectTo (url : String)
  deriving Repr, DecidableEq

/-- The route `redirect_short_url` for `GET` of a shortcode: resolve through
`get` (clock read `t1`), re-check expiry (clock read `t2`), then record the
click (clock read `t3`) and redirect.  `referer` is the request's Referer
header; the location argument is hard-coded `None` in the source. -/
def redirect_short_url (st : Store) (code : String) (referer : Option String)
    (t1 t2 t3 : Int) : RedirectResp × Store :=
  match get st code t1 with
  | (none, st1) => (.notFound, st1)
  | (some item, st1) =>
    if t2 > item.expiry then (.gone, st1)
    else (.redirectTo item.url, record_click st1 code referer none t3)

/-- `record_click` iterated: call number `i` (0-based) uses referrer `refs i`,
location `locs i` and clock read `times i`. -/
def clickN (st : Store) (code : String) (refs locs : Nat → Option String)
    (times : Nat → Int) : Nat → Store
  | 0 => st
  | n + 1 => record_click (clickN st code refs locs times n) code (refs n) (locs n) (times n)

/-- One store operation, for stating whole-trace invariants. -/
inductive Op
  | create (item : Item) (gen : Nat → String) (now : Int)
  | resolve (code : String) (now : Int)
  | click (code : String) (referrer location : Option String) (now : Int)
  | stats (code : String)

/-- The store after one operation. -/
def runOp (st : Store) : Op → Store
  | .create item gen now => (save st item gen now).2
  | .resolve code now => (get st code now).2
  | .click code r l now => record_click st code r l now
  | .stats code => (get_stats st code).2

/-- The store after a sequence of operations. -/
def runOps (st : Store) : List Op → Store
  | [] => st
  | op :: ops => runOps (runOp st op) ops

/-- The spec's store invariant: every record's click count equals the length
of its click log. -/
def ClickInv (st : Store) : Prop :=
  ∀ p ∈ st, p.2.clicks = p.2.click_details.length

/-! ### Map lemmas -/

theorem lookup_append_right (l1 l2 : Store) (k : String) (h : lookup l1 k = none) :
    lookup (l1 ++ l2) k = lookup l2 k := by
  induction l1 with
  | nil => rfl
  | cons p rest ih =>
    obtain ⟨a, b⟩ := p
    by_cases hak : a = k
    · simp [lookup, hak] at h
    · simp only [lookup, hak, if_false] at h
      simpa [lookup, hak] using ih h

theorem lookup_map_set (st : Store) (k : String) (v : UrlRecord) :
    lookup (st.map (fun p => if p.1 = k then (k, v) else p)) k =
      if (lookup st k).isSome then some v else none := by
  induction st with
  | nil => rfl
  | cons p rest ih =>
    obtain ⟨a, b⟩ := p
    simp only [List.map_cons]
    by_cases hak : a = k
    · subst hak
      have hfst : ((a, b).1 = a) := rfl
      rw [if_pos hfst]
      simp [lookup]
    · rw [if_neg hak]
      simp [lookup, hak, ih]

theorem lookup_setKey_self (st : Store) (k : String) (v : UrlRecord) :
    lookup (setKey st k v) k = some v := by
  unfold setKey
  cases hl : lookup st k with
  | none =>
    have happ := lookup_append_right st [(k, v)] k hl
    simp [hl, happ, lookup]
  | some w =>
    simp [hl, lookup_map_set]

theorem lookup_eraseKey_self (st : Store) (k : String) :
    lookup (eraseKey st k) k = none := by
  induction st with
  | nil => rfl
  | cons p rest ih =>
    obtain ⟨a, b⟩ := p
    by_cases hak : a = k
    · simpa [eraseKey, hak] using ih
    · simpa [eraseKey, lookup, hak] using ih

theorem lookup_mem (st : Store) (k : String) (v : UrlRecord) (h : lookup st k = some v) :
    (k, v) ∈ st := by
  induction st with
  | nil => simp [lookup] at h
  | cons p rest ih =>
    obtain ⟨a, b⟩ := p
    by_cases hak : a = k
    · simp only [lookup, hak, if_true] at h
      cases h
      simp [hak]
    · simp only [lookup, hak, if_false] at h
      exact List.mem_cons_of_mem _ (ih h)

theorem mem_setKey (st : Store) (k : String) (v : UrlRecord) (p : String × UrlRecord)
    (h : p ∈ setKey st k v) : p ∈ st ∨ p = (k, v) := by
  unfold setKey at h
  cases hl : lookup st k with
  | none =>
    rw [hl] at h
    simp only [Option.isSome_none, Bool.false_eq_true, if_false, List.mem_append,
      List.mem_singleton] at h
    exact h
  | some w =>
    rw [hl] at h
    simp only [Option.isSome_some, if_true, List.mem_map] at h
    obtain ⟨q, hq, hfq⟩ := h
    by_cases hqk : q.1 = k
    · right
      rw [if_pos hqk] at hfq
      exact hfq.symm
    · left
      rw [if_neg hqk] at hfq
      exact hfq ▸ hq

theorem mem_eraseKey (st : Store) (k : String) (p : String × UrlRecord)
    (h : p ∈ eraseKey st k) : p ∈ st := by
  induction st with
  | nil => simp [eraseKey] at h
  | cons q rest ih =>
    obtain ⟨a, b⟩ := q
    by_cases hak : a = k
    · simp only [eraseKey, hak, if_true] at h
      exact List.mem_cons_of_mem _ (ih h)
    · simp only [eraseKey, hak, if_false, List.mem_cons] at h
      rcases h with h | h
      · simp [h]
      · exact List.mem_cons_of_mem _ (ih h)

/-! ### Generation-loop lemmas -/

theorem genAux_ok (mem : String → Bool) (gen : Nat → String) :
    ∀ fuel a sc, genAux mem gen a fuel = .ok sc → ∃ i, sc = gen i ∧ mem sc = false := by
  intro fuel
  induction fuel with
  | zero => intro a sc h; simp [genAux] at h
  | succ n ih =>
    intro a sc h
    unfold genAux at h
    by_cases hm : mem (gen a)
    · by_cases hb : a + 1 > 10000
      · simp [hm, hb] at h
      · simp only [hm, hb, if_true, if_false] at h
        exact ih _ _ h
    · simp only [hm, if_false] at h
      cases h
      exact ⟨a, rfl, by simpa using hm⟩

theorem genAux_error (mem : String → Bool) (gen : Nat → String) :
    ∀ fuel a e, genAux mem gen a fuel = .error e → e = .spaceExhausted := by
  intro fuel
  induction fuel with
  | zero => intro a e h; simpa [genAux] using h.symm
  | succ n ih =>
    intro a e h
    unfold genAux at h
    by_cases hm : mem (gen a)
    · by_cases hb : a + 1 > 10000
      · simp only [hm, hb, if_true] at h
        cases h; rfl
      · simp only [hm, hb, if_true, if_false] at h
        exact ih _ _ h
    · simp [hm] at h

theorem genAux_collide_all (mem : String → Bool) (gen : Nat → String) :
    ∀ fuel a, a + fuel = 10001 →
      (∀ i, a ≤ i → i ≤ 10000 → mem (gen i) = true) →
      genAux mem gen a fuel = .error .spaceExhausted := by
  intro fuel
  induction fuel with
  | zero => intro a _ _; rfl
  | succ n ih =>
    intro a hsum hcol
    have hm : mem (gen a) = true := hcol a le_rfl (by omega)
    unfold genAux
    by_cases hb : a + 1 > 10000
    · simp [hm, hb]
    · simp only [hm, hb, if_true, if_false]
      exact ih (a + 1) (by omega) (fun i h1 h2 => hcol i (by omega) h2)

theorem genAux_fresh (mem : String → Bool) (gen : Nat → String) (n : Nat)
    (hn : n ≤ 10000) (hfresh : mem (gen n) = false) :
    ∀ fuel a, a ≤ n → n < a + fuel →
      (∀ i, a ≤ i → i < n → mem (gen i) = true) →
      genAux mem gen a fuel = .ok (gen n) := by
  intro fuel
  induction fuel with
  | zero => intro a h1 h2 _; omega
  | succ m ih =>
    intro a h1 h2 hcol
    unfold genAux
    by_cases han : a = n
    · subst han
      simp [hfresh]
    · have hm : mem (gen a) = true := hcol a le_rfl (by omega)
      have hb : ¬ a + 1 > 10000 := by omega
      simp only [hm, hb, if_true, if_false]
      exact ih (a + 1) (by omega) (by omega) (fun i hi1 hi2 => hcol i (by omega) hi2)

/-! ### Candidate-shape lemmas -/

theorem generate_shortcode_length (choice : Nat → Nat) :
    (generate_shortcode choice).length = 6 := by
  show ((List.range 6).map _).length = 6
  simp

theorem generate_shortcode_alphabet (choice : Nat → Nat) :
    ∀ c ∈ (generate_shortcode choice).toList, c ∈ ALPHABET.toList := by
  intro c hc
  have hl : (generate_shortcode choice).toList =
      (List.range 6).map (fun i => ALPHABET.toList.getD (choice i % 36) 'a') := rfl
  rw [hl, List.mem_map] at hc
  obtain ⟨i, _, rfl⟩ := hc
  have hlen : choice i % 36 < ALPHABET.toList.length := by
    have h36 : ALPHABET.toList.length = 36 := rfl
    rw [h36]
    exact Nat.mod_lt _ (by norm_num)
  rw [List.getD_eq_getElem?_getD, List.getElem?_eq_getElem hlen]
  exact List.getElem_mem hlen

/-! ### Characterizations of `pickShortcode` -/

theorem valid_shortcode_truthy (s : String) (hv : is_valid_shortcode s = true) :
    (s != "") = true := by
  simp only [is_valid_shortcode, Bool.and_eq_true, decide_eq_true_eq] at hv
  have h4 : 4 ≤ s.length := hv.1.1
  simp only [bne_iff_ne, ne_eq]
  intro he
  subst he
  exact absurd h4 (by decide)

theorem pickShortcode_custom (st : Store) (item : Item) (gen : Nat → String) (sc : String)
    (hsc : item.shortcode = some sc) (hv : is_valid_shortcode sc = true) :
    pickShortcode st item gen =
      if (lookup st sc).isSome then .error .shortcodeTaken else .ok sc := by
  unfold pickShortcode
  rw [hsc]
  have ht : truthyStr (some sc) = true := valid_shortcode_truthy sc hv
  simp [ht, hv]

theorem pickShortcode_gen (st : Store) (item : Item) (gen : Nat → String)
    (h : truthyStr item.shortcode = false) :
    pickShortcode st item gen = genLoop (memOf st) gen := by
  unfold pickShortcode
  simp [h]

/-! ### Concrete fixtures for counterexamples and witnesses -/

/-- An already-expired record (expiry instant 10). -/
def recExpired : UrlRecord :=
  { url := "http://example.com", validity := 30, expiry := 10, created := 0,
    clicks := 0, click_details := [] }

/-- A store holding the single expired record under "abcd". -/
def stExpired : Store := [("abcd", recExpired)]

/-- A live record (expiry instant 1800). -/
def recLive : UrlRecord :=
  { url := "http://example.com/page", validity := 30, expiry := 1800, created := 0,
    clicks := 0, click_details := [] }

/-- A store holding the single live record under "code1". -/
def stLive : Store := [("code1", recLive)]

/-- A request asking for the already-present shortcode "abcd". -/
def itemAbcd : Item :=
  { url := "http://new.example", validity := none, shortcode := some "abcd" }

/-- A request with no desired shortcode. -/
def itemNoCode : Item :=
  { url := "http://gen.example", validity := none, shortcode := none }

/-- A request with a custom shortcode and validity 5. -/
def itemCustom : Item :=
  { url := "http://t.example", validity := some 5, shortcode := some "mycode" }

/-- A degenerate candidate oracle: always the same candidate. -/
def genZ : Nat → String := fun _ => "zzzzzz"

/-- A store with an expired record under the 6-character key "zzzzzz". -/
def stExpiredZ : Store := [("zzzzzz", recExpired)]

/-- A store with a live record under the 6-character key "zzzzzz". -/
def stLiveZ : Store := [("zzzzzz", recLive)]

/-- Collides (with key "zzzzzz") on the first 10000 draws, fresh afterwards. -/
def genZthenA : Nat → String := fun i => if i < 10000 then "zzzzzz" else "aaaaaa"

/-- Character oracle always returning index 25 (the letter z). -/
def choicesZ : Nat → Nat → Nat := fun _ _ => 25

/-! ### Claim C1 -/

/-- C1 counterexample: at time 20 the record stored under "abcd" is already
expired (expiry 10) and has not been evicted, yet `save` with desired
shortcode "abcd" still fails with ShortcodeTaken, where the claim says such
a create succeeds. -/
theorem C1_counterexample :
    (20 : Int) > recExpired.expiry ∧
    lookup stExpired "abcd" = some recExpired ∧
    (save stExpired itemAbcd genZ 20).1 = .error .shortcodeTaken :=
  ⟨by decide, rfl, rfl⟩

/-- C1 (amended): with an explicit desired shortcode of valid format, `save`
fails with ShortcodeTaken iff the shortcode is currently a key of the map —
live or expired-but-not-yet-evicted; once an expired record under that
shortcode has been evicted by a resolve (`get`), the create succeeds. -/
theorem C1_amended (st : Store) (item : Item) (gen : Nat → String) (now : Int) (sc : String)
    (hsc : item.shortcode = some sc) (hv : is_valid_shortcode sc = true) :
    ((save st item gen now).1 = .error .shortcodeTaken ↔ (lookup st sc).isSome = true) ∧
    (∀ r, lookup st sc = some r → now > r.expiry →
      (save (get st sc now).2 item gen now).1 = .ok sc) := by
  constructor
  · unfold save
    rw [pickShortcode_custom st item gen sc hsc hv]
    cases hl : lookup st sc with
    | none => simp
    | some w => simp
  · intro r hr hexp
    have hget : (get st sc now).2 = eraseKey st sc := by
      unfold get
      rw [hr]
      simp [hexp]
    rw [hget]
    unfold save
    rw [pickShortcode_custom _ item gen sc hsc hv]
    simp [lookup_eraseKey_self]

/-- C1 witness: the amended theorem at the concrete expired store. -/
theorem C1_witness :
    (save (get stExpired "abcd" 20).2 itemAbcd genZ 20).1 = .ok "abcd" :=
  (C1_amended stExpired itemAbcd genZ 20 "abcd" rfl (by decide)).2 recExpired rfl (by decide)

/-! ### Claim C2 -/

/-- C2 counterexample: redirecting "abcd" at time 20, when its record is in
the map but expired (expiry 10), yields the 404 not-found response (with
lazy eviction), not the 410 Gone response the claim requires for an
existing-but-expired record. -/
theorem C2_counterexample :
    lookup stExpired "abcd" = some recExpired ∧
    (20 : Int) > recExpired.expiry ∧
    (redirect_short_url stExpired "abcd" none 20 20 20).1 = .notFound :=
  ⟨rfl, by decide, rfl⟩

/-- C2 (amended): the redirect route gives 404 on an unknown shortcode; 404
(with lazy eviction) when the record exists but is already expired at the
resolve's clock read; 410 Gone only when the record is live at the resolve
but expired at the route's second clock read; otherwise it redirects to the
original URL and records a click with the Referer header as referrer and
location always null. -/
theorem C2_amended (st : Store) (code : String) (referer : Option String) (t1 t2 t3 : Int) :
    (lookup st code = none → redirect_short_url st code referer t1 t2 t3 = (.notFound, st)) ∧
    (∀ r, lookup st code = some r → t1 > r.expiry →
      redirect_short_url st code referer t1 t2 t3 = (.notFound, eraseKey st code)) ∧
    (∀ r, lookup st code = some r → ¬ t1 > r.expiry → t2 > r.expiry →
      redirect_short_url st code referer t1 t2 t3 = (.gone, st)) ∧
    (∀ r, lookup st code = some r → ¬ t1 > r.expiry → ¬ t2 > r.expiry →
      redirect_short_url st code referer t1 t2 t3 =
        (.redirectTo r.url, record_click st code referer none t3)) := by
  refine ⟨?_, ?_, ?_, ?_⟩
  · intro h
    simp [redirect_short_url, get, h]
  · intro r hr hexp
    simp [redirect_short_url, get, hr, hexp]
  · intro r hr hlive hexp2
    simp [redirect_short_url, get, hr, hlive, hexp2]
  · intro r hr hlive hlive2
    simp [redirect_short_url, get, hr, hlive, hlive2]

/-- C2 witness: the amended theorem's redirect branch at a concrete live
store. -/
theorem C2_witness :
    redirect_short_url stLive "code1" (some "http://ref.example") 5 6 7 =
      (.redirectTo recLive.url,
        record_click stLive "code1" (some "http://ref.example") none 7) :=
  (C2_amended stLive "code1" (some "http://ref.example") 5 6 7).2.2.2 recLive rfl
    (by decide) (by decide)

/-! ### Claim C3 -/

/-- C3: resolve returns absent on a missing shortcode; on a present but
expired record it deletes the record and returns absent, so any subsequent
resolve of the same shortcode also returns absent; on a live record it
returns the record unchanged; and it never returns a record whose
expiry is before the call time. -/
theorem C3_resolve (st : Store) (code : String) (now : Int) :
    (lookup st code = none → get st code now = (none, st)) ∧
    (∀ r, lookup st code = some r → now > r.expiry →
      (get st code now).1 = none ∧ ∀ t, (get (get st code now).2 code t).1 = none) ∧
    (∀ r, lookup st code = some r → ¬ now > r.expiry → get st code now = (some r, st)) ∧
    (∀ r, (get st code now).1 = some r → ¬ r.expiry < now) := by
  refine ⟨?_, ?_, ?_, ?_⟩
  · intro h
    simp [get, h]
  · intro r hr hexp
    refine ⟨by simp [get, hr, hexp], ?_⟩
    intro t
    have h2 : (get st code now).2 = eraseKey st code := by
      simp [get, hr, hexp]
    rw [h2]
    simp [get, lookup_eraseKey_self]
  · intro r hr hlive
    simp [get, hr, hlive]
  · intro r hres
    unfold get at hres
    cases hl : lookup st code with
    | none =>
      rw [hl] at hres
      simp at hres
    | some w =>
      rw [hl] at hres
      by_cases hexp : now > w.expiry
      · simp [hexp] at hres
      · simp only [hexp, if_false] at hres
        cases hres
        exact hexp

/-- C3 witness: resolving the concrete expired store at time 20 returns
absent and a second resolve at time 25 is also absent. -/
theorem C3_witness :
    (get stExpired "abcd" 20).1 = none ∧ (get (get stExpired "abcd" 20).2 "abcd" 25).1 = none := by
  have h := (C3_resolve stExpired "abcd" 20).2.1 recExpired rfl (by decide)
  exact ⟨h.1, h.2 25⟩

/-! ### Claim C4 -/

/-- C4 counterexample: (a) with the map holding only an expired record under
"zzzzzz" and every draw producing "zzzzzz", the loop counts the collision
with the non-live key as a collision and fails with ShortcodeSpaceExhausted,
where the claim says a candidate that collides with no live record is
accepted; (b) with a live "zzzzzz" and exactly 10000 consecutive collisions
followed by a fresh draw, `save` succeeds, where the claim says the loop
fails after 10000 consecutive collisions. -/
theorem C4_counterexample :
    ((20 : Int) > recExpired.expiry ∧
      (save stExpiredZ itemNoCode genZ 20).1 = .error .spaceExhausted) ∧
    (save stLiveZ itemNoCode genZthenA 20).1 = .ok "aaaaaa" := by
  refine ⟨⟨by decide, ?_⟩, ?_⟩
  · unfold save
    rw [pickShortcode_gen stExpiredZ itemNoCode genZ rfl]
    unfold genLoop
    rw [genAux_collide_all (memOf stExpiredZ) genZ 10001 0 rfl (fun i _ _ => rfl)]
  · unfold save
    rw [pickShortcode_gen stLiveZ itemNoCode genZthenA rfl]
    unfold genLoop
    have hfresh : memOf stLiveZ (genZthenA 10000) = false := rfl
    have hcol : ∀ i, 0 ≤ i → i < 10000 → memOf stLiveZ (genZthenA i) = true := by
      intro i _ hi
      unfold genZthenA
      rw [if_pos hi]
      rfl
    rw [genAux_fresh (memOf stLiveZ) genZthenA 10000 le_rfl hfresh 10001 0 (by omega)
      (by omega) hcol]
    rfl

/-- C4 (amended): for a create without a desired shortcode, every candidate
drawn by the loop has exactly 6 characters from the 36-symbol
lowercase-alphanumeric alphabet and a successful create returns a candidate
that is not a key of the map (live or expired); if the first 10001 draws all
collide with keys of the map the call terminates with
ShortcodeSpaceExhausted; and if some draw among the first 10001 is the first
non-colliding one, the call returns exactly that candidate. -/
theorem C4_amended (st : Store) (item : Item) (choices : Nat → Nat → Nat) (now : Int)
    (hnone : item.shortcode = none) :
    (∀ sc, (save st item (fun i => generate_shortcode (choices i)) now).1 = .ok sc →
      sc.length = 6 ∧ (∀ c ∈ sc.toList, c ∈ ALPHABET.toList) ∧ lookup st sc = none) ∧
    ((∀ i, i ≤ 10000 → (lookup st (generate_shortcode (choices i))).isSome = true) →
      (save st item (fun i => generate_shortcode (choices i)) now).1 =
        .error .spaceExhausted) ∧
    (∀ n, n ≤ 10000 →
      (∀ i, i < n → (lookup st (generate_shortcode (choices i))).isSome = true) →
      (lookup st (generate_shortcode (choices n))).isSome = false →
      (save st item (fun i => generate_shortcode (choices i)) now).1 =
        .ok (generate_shortcode (choices n))) := by
  have htruthy : truthyStr item.shortcode = false := by rw [hnone]; rfl
  refine ⟨?_, ?_, ?_⟩
  · intro sc h
    unfold save at h
    rw [pickShortcode_gen _ _ _ htruthy] at h
    unfold genLoop at h
    cases hres : genAux (memOf st) (fun i => generate_shortcode (choices i)) 0 10001 with
    | error e =>
      rw [hres] at h
      simp at h
    | ok c =>
      rw [hres] at h
      simp at h
      subst h
      obtain ⟨i, hi, hmem⟩ := genAux_ok _ _ 10001 0 _ hres
      refine ⟨?_, ?_, ?_⟩
      · rw [hi]; exact generate_shortcode_length _
      · rw [hi]; exact generate_shortcode_alphabet _
      · have hns : (lookup st c).isSome = false := hmem
        cases hl : lookup st c with
        | none => rfl
        | some w => rw [hl] at hns; simp at hns
  · intro hcol
    unfold save
    rw [pickShortcode_gen _ _ _ htruthy]
    unfold genLoop
    rw [genAux_collide_all _ _ 10001 0 rfl (fun i _ h2 => hcol i h2)]
  · intro n hn hcol hfresh
    unfold save
    rw [pickShortcode_gen _ _ _ htruthy]
    unfold genLoop
    rw [genAux_fresh _ _ n hn (by simpa [memOf] using hfresh) 10001 0 (by omega) (by omega)
      (fun i _ hi => hcol i hi)]

/-- C4 witness: the amended exhaustion bound at a concrete store whose only
key is the constant candidate. -/
theorem C4_witness :
    (save stLiveZ itemNoCode (fun i => generate_shortcode (choicesZ i)) 20).1 =
      .error .spaceExhausted :=
  (C4_amended stLiveZ itemNoCode choicesZ 20 rfl).2.1 (fun _ _ => rfl)

/-! ### Claim C5 -/

/-- C5: a successful create inserts, under the returned shortcode, a record
with createdAt equal to the call time, expiresAt equal to createdAt plus the
validity in minutes — defaulting to 30 when absent or non-positive — zero
clicks and an empty click log.  `hvalidity` is pydantic's `ge=1` constraint
on the request body. -/
theorem C5_create_success (st : Store) (item : Item) (gen : Nat → String) (now : Int)
    (sc : String)
    (hvalidity : item.validity = none ∨ ∃ n, item.validity = some n ∧ 1 ≤ n)
    (hok : (save st item gen now).1 = .ok sc) :
    ∃ r, lookup (save st item gen now).2 sc = some r ∧
      r.created = now ∧
      r.expiry = r.created + 60 * (match item.validity with
        | none => 30
        | some n => if n ≤ 0 then 30 else n) ∧
      r.clicks = 0 ∧ r.click_details = [] ∧ r.url = item.url := by
  have hord : orDefault item.validity = (match item.validity with
      | none => 30
      | some n => if n ≤ 0 then 30 else n) := by
    rcases hvalidity with h | ⟨n, h, hn⟩
    · rw [h]
      rfl
    · rw [h]
      show (if n = 0 then 30 else n) = if n ≤ 0 then 30 else n
      have h1 : ¬ n = 0 := by omega
      have h2 : ¬ n ≤ 0 := by omega
      rw [if_neg h1, if_neg h2]
  unfold save at hok ⊢
  cases hp : pickShortcode st item gen with
  | error e =>
    rw [hp] at hok
    simp at hok
  | ok sc2 =>
    rw [hp] at hok
    simp at hok
    subst hok
    refine ⟨_, lookup_setKey_self _ _ _, rfl, ?_, rfl, rfl, rfl⟩
    show now + 60 * orDefault item.validity = now + 60 * _
    rw [hord]

/-- C5 witness: a concrete successful create with validity 5. -/
theorem C5_witness :
    ∃ r, lookup (save [] itemCustom genZ 100).2 "mycode" = some r ∧
      r.created = 100 ∧
      r.expiry = r.created + 60 * (match itemCustom.validity with
        | none => 30
        | some n => if n ≤ 0 then 30 else n) ∧
      r.clicks = 0 ∧ r.click_details = [] ∧ r.url = itemCustom.url :=
  C5_create_success [] itemCustom genZ 100 "mycode"
    (Or.inr ⟨5, rfl, by norm_num⟩) rfl

/-! ### Claim C6 -/

theorem lookup_clickN (st : Store) (code : String) (r : UrlRecord)
    (refs locs : Nat → Option String) (times : Nat → Int)
    (hr : lookup st code = some r) :
    ∀ N, lookup (clickN st code refs locs times N) code =
      some { r with
        clicks := r.clicks + N
        click_details := r.click_details ++ (List.range N).map
          (fun i => { timestamp := times i, referrer := refs i, location := locs i }) } := by
  intro N
  induction N with
  | zero =>
    simpa using hr
  | succ n ih =>
    show lookup (record_click (clickN st code refs locs times n) code
      (refs n) (locs n) (times n)) code = _
    unfold record_click
    rw [ih, lookup_setKey_self]
    simp [List.range_succ]
    omega

/-- C6: recordClick on a shortcode present in the map (live or expired — the
path never checks expiry) appends one event and increments the count per
call: N calls starting from a fresh record yield count N and a log of
exactly the N events in call order, chronologically ordered whenever the
clock reads are monotone; on an absent shortcode recordClick is a silent
no-op. -/
theorem C6_record_click (st : Store) (code : String) (r : UrlRecord)
    (refs locs : Nat → Option String) (times : Nat → Int) (N : Nat)
    (st2 : Store) (code2 : String) (ref2 loc2 : Option String) (t2 : Int)
    (hr : lookup st code = some r) (h0 : r.clicks = 0) (hlog : r.click_details = [])
    (habs : lookup st2 code2 = none) :
    (lookup (clickN st code refs locs times N) code =
      some { r with
        clicks := N
        click_details := (List.range N).map
          (fun i => { timestamp := times i, referrer := refs i, location := locs i }) }) ∧
    ((∀ i j, i ≤ j → times i ≤ times j) →
      ∀ rN, lookup (clickN st code refs locs times N) code = some rN →
        rN.click_details.Pairwise (fun a b => a.timestamp ≤ b.timestamp)) ∧
    record_click st2 code2 ref2 loc2 t2 = st2 := by
  have hmain := lookup_clickN st code r refs locs times hr N
  rw [h0, hlog] at hmain
  simp only [Nat.zero_add, List.nil_append] at hmain
  refine ⟨hmain, ?_, ?_⟩
  · intro hmono rN hrN
    rw [hmain] at hrN
    cases hrN
    simp only
    rw [List.pairwise_map]
    exact (List.pairwise_lt_range N).imp (fun hij => hmono _ _ (Nat.le_of_lt hij))
  · unfold record_click
    rw [habs]

/-- C6 witness: two clicks on the expired-but-present record "abcd". -/
theorem C6_witness :
    lookup (clickN stExpired "abcd" (fun _ => some "http://ref.example") (fun _ => none)
        (fun i => (100 : Int) + i) 2) "abcd" =
      some { recExpired with
        clicks := 2
        click_details := (List.range 2).map
          (fun i => { timestamp := (100 : Int) + i
                      referrer := some "http://ref.example"
                      location := none }) } :=
  (C6_record_click stExpired "abcd" recExpired (fun _ => some "http://ref.example")
    (fun _ => none) (fun i => (100 : Int) + i) 2 [] "x" none none 0 rfl rfl rfl rfl).1

/-! ### Claim C7 -/

/-- C7: getStats returns absent iff the shortcode is not a key of the map,
never changes the store, and on any present record — including an
expired-but-not-yet-evicted one — returns the full stats composed from the
record's fields. -/
theorem C7_stats (st : Store) (code : String) :
    ((get_stats st code).1 = none ↔ lookup st code = none) ∧
    (get_stats st code).2 = st ∧
    (∀ r, lookup st code = some r →
      (get_stats st code).1 = some
        { shortLink := "http://localhost:8000/" ++ code
          originalUrl := r.url
          created := r.created
          expiry := r.expiry
          clicks := r.clicks
          clickDetails := r.click_details }) := by
  cases hl : lookup st code with
  | none =>
    refine ⟨by simp [get_stats, hl], by simp [get_stats, hl], ?_⟩
    intro r hr
    cases hr
  | some w =>
    refine ⟨by simp [get_stats, hl], by simp [get_stats, hl], ?_⟩
    intro r hr
    cases hr
    simp [get_stats, hl]

/-- C7 witness: full stats for the expired-but-present record "abcd". -/
theorem C7_witness :
    (get_stats stExpired "abcd").1 = some
      { shortLink := "http://localhost:8000/" ++ "abcd"
        originalUrl := recExpired.url
        created := recExpired.created
        expiry := recExpired.expiry
        clicks := recExpired.clicks
        clickDetails := recExpired.click_details } :=
  (C7_stats stExpired "abcd").2.2 recExpired rfl

/-! ### Claim C8 -/

theorem clickInv_setKey (st : Store) (k : String) (v : UrlRecord)
    (hinv : ClickInv st) (hv : v.clicks = v.click_details.length) :
    ClickInv (setKey st k v) := by
  intro p hp
  rcases mem_setKey st k v p hp with h | h
  · exact hinv p h
  · rw [h]
    exact hv

theorem clickInv_eraseKey (st : Store) (k : String) (hinv : ClickInv st) :
    ClickInv (eraseKey st k) :=
  fun p hp => hinv p (mem_eraseKey st k p hp)

theorem clickInv_runOp (st : Store) (op : Op) (hinv : ClickInv st) :
    ClickInv (runOp st op) := by
  cases op with
  | create item gen now =>
    show ClickInv (save st item gen now).2
    unfold save
    cases hp : pickShortcode st item gen with
    | error e => exact hinv
    | ok sc => exact clickInv_setKey _ _ _ hinv rfl
  | resolve code now =>
    show ClickInv (get st code now).2
    unfold get
    cases hl : lookup st code with
    | none => exact hinv
    | some w =>
      by_cases hexp : now > w.expiry
      · simp only [hexp, if_true]
        exact clickInv_eraseKey _ _ hinv
      · simp only [hexp, if_false]
        exact hinv
  | click code ref loc now =>
    show ClickInv (record_click st code ref loc now)
    unfold record_click
    cases hl : lookup st code with
    | none => exact hinv
    | some w =>
      refine clickInv_setKey _ _ _ hinv ?_
      have hw : w.clicks = w.click_details.length := hinv (code, w) (lookup_mem st code w hl)
      simp [hw]
  | stats code =>
    show ClickInv (get_stats st code).2
    unfold get_stats
    cases hl : lookup st code with
    | none => exact hinv
    | some w => exact hinv

theorem clickInv_runOps (ops : List Op) : ∀ st, ClickInv st → ClickInv (runOps st ops) := by
  induction ops with
  | nil => intro st h; exact h
  | cons op rest ih =>
    intro st h
    exact ih _ (clickInv_runOp st op h)

/-- C8: after every sequence of store operations (create, resolve,
recordClick, getStats) starting from the empty store, every record's click
count equals the length of its click log. -/
theorem C8_invariant (ops : List Op) : ClickInv (runOps [] ops) :=
  clickInv_runOps ops [] (fun p hp => absurd hp (List.not_mem_nil p))

/-! ### Claim C9 -/

/-- C9: whenever save fails — with any of its three errors — the returned
store is exactly the store before the call: every `raise` in the source
precedes the insert, and nothing else mutates the map. -/
theorem C9_error_no_change (st : Store) (item : Item) (gen : Nat → String) (now : Int)
    (e : SaveErr) (h : (save st item gen now).1 = .error e) :
    (save st item gen now).2 = st := by
  unfold save at h ⊢
  cases hp : pickShortcode st item gen with
  | error e2 => rfl
  | ok sc =>
    rw [hp] at h
    simp at h

/-- C9 witness: the failing ShortcodeTaken create leaves the concrete store
untouched. -/
theorem C9_witness : (save stExpired itemAbcd genZ 20).2 = stExpired :=
  C9_error_no_change stExpired itemAbcd genZ 20 .shortcodeTaken rfl

/-! ### Claim C10 -/

/-- C10: a create whose desired shortcode is the empty string is treated
exactly as if no desired shortcode were supplied: identical result and
store, never an InvalidShortcodeFormat failure (the only possible error is
ShortcodeSpaceExhausted), and any returned shortcode is a generated
6-character one. -/
theorem C10_empty_shortcode (st : Store) (url : String) (validity : Option Int)
    (choices : Nat → Nat → Nat) (now : Int) :
    save st { url := url, validity := validity, shortcode := some "" }
        (fun i => generate_shortcode (choices i)) now =
      save st { url := url, validity := validity, shortcode := none }
        (fun i => generate_shortcode (choices i)) now ∧
    (∀ e, (save st { url := url, validity := validity, shortcode := some "" }
        (fun i => generate_shortcode (choices i)) now).1 = .error e →
      e = .spaceExhausted) ∧
    (∀ sc, (save st { url := url, validity := validity, shortcode := some "" }
        (fun i => generate_shortcode (choices i)) now).1 = .ok sc → sc.length = 6) := by
  have hpick : pickShortcode st { url := url, validity := validity, shortcode := some "" }
      (fun i => generate_shortcode (choices i)) =
      genLoop (memOf st) (fun i => generate_shortcode (choices i)) :=
    pickShortcode_gen _ _ _ rfl
  have hpick2 : pickShortcode st { url := url, validity := validity, shortcode := none }
      (fun i => generate_shortcode (choices i)) =
      genLoop (memOf st) (fun i => generate_shortcode (choices i)) :=
    pickShortcode_gen _ _ _ rfl
  refine ⟨?_, ?_, ?_⟩
  · unfold save
    rw [hpick, hpick2]
  · intro e h
    unfold save at h
    rw [hpick] at h
    unfold genLoop at h
    cases hres : genAux (memOf st) (fun i => generate_shortcode (choices i)) 0 10001 with
    | error e2 =>
      rw [hres] at h
      simp at h
      subst h
      exact genAux_error _ _ 10001 0 _ hres
    | ok c =>
      rw [hres] at h
      simp at h
  · intro sc h
    unfold save at h
    rw [hpick] at h
    unfold genLoop at h
    cases hres : genAux (memOf st) (fun i => generate_shortcode (choices i)) 0 10001 with
    | error e2 =>
      rw [hres] at h
      simp at h
    | ok c =>
      rw [hres] at h
      simp at h
      subst h
      obtain ⟨i, hi, _⟩ := genAux_ok _ _ 10001 0 _ hres
      rw [hi]
      exact generate_shortcode_length _

/-- C10 witness: the empty-string create coincides with the absent-shortcode
create at a concrete input. -/
theorem C10_witness :
    save [] { url := "http://t.example", validity := none, shortcode := some "" }
        (fun i => generate_shortcode (choicesZ i)) 0 =
      save [] { url := "http://t.example", validity := none, shortcode := none }
        (fun i => generate_shortcode (choicesZ i)) 0 :=
  (C10_empty_shortcode [] "http://t.example" none choicesZ 0).1

end UrlShortener
